import Mathlib

/-!
Verification of the EquationPyramid puzzle bot (src/bot.py) against its
natural-language specification.

Shallow embedding conventions:
* Python floats are modelled as exact rationals (`ℚ`).  All inputs the
  program feeds to the solver are integers converted with `float(...)`,
  and the literals `1e-6` / `1e-12` are modelled as `1/10^6` / `1/10^12`.
* The parallel lists `nums` / `exprs` of `find_solution_expr` are
  modelled as a single list of pairs `(value, expression-string)`; the
  Python code applies identical index operations to both lists.
* The sqlite store and the in-memory `GameEngine` state for one chat are
  modelled as a `ChatState` record; `EngineFacade.check_answer` becomes a
  pure state transition returning the new state and an `Outcome`.
* Randomness in `generate_solvable_puzzle` is modelled by passing the
  drawn numbers explicitly to the code path under scrutiny (the
  deterministic fallback tail of the function).
-/

attribute [local semireducible] Rat.add Rat.sub Rat.mul Rat.inv

/-- Python's `abs` on a real value: `-q` when `q` is negative, else `q`.
(Kept as an explicit definition so that concrete runs of the solver
reduce inside the kernel.) -/
def ratAbs (q : ℚ) : ℚ := if q < 0 then -q else q

/-- The candidate list built for a pair `a, b` (with expression strings
`ea, eb`) inside `find_solution_expr` (bot.py lines 627-635).  Order:
add, multiply, subtract (left-right), subtract (right-left), then the
two divisions, each guarded by `abs(divisor) > 1e-12`. -/
def candidates (a b : ℚ) (ea eb : String) : List (ℚ × String) :=
  [(a + b, "(" ++ ea ++ "+" ++ eb ++ ")"),
   (a * b, "(" ++ ea ++ "*" ++ eb ++ ")"),
   (a - b, "(" ++ ea ++ "-" ++ eb ++ ")"),
   (b - a, "(" ++ eb ++ "-" ++ ea ++ ")")]
  ++ (if (1 : ℚ)/10^12 < ratAbs b then [(a / b, "(" ++ ea ++ "/" ++ eb ++ ")")] else [])
  ++ (if (1 : ℚ)/10^12 < ratAbs a then [(b / a, "(" ++ eb ++ "/" ++ ea ++ ")")] else [])

/-- The nested loops `for i in range(n): for j in range(i+1, n)` of
`find_solution_expr` (bot.py lines 620-621). -/
def pairIndices (n : ℕ) : List (ℕ × ℕ) :=
  (List.range n).flatMap (fun i => (List.range' (i+1) (n - (i+1))).map (fun j => (i, j)))

/-- `[xs[k] for k in range(n) if k != i and k != j]` (bot.py lines 624-625). -/
def removeTwo (l : List α) (i j : ℕ) : List α :=
  ((l.enum).filter (fun p => p.1 != i && p.1 != j)).map Prod.snd

/-- Recursion worker for `find_solution_expr`.  The Python function
recurses on a list that is one element shorter at every call, so running
it with fuel equal to the list length reproduces it exactly (fuel `0`
corresponds to the empty list, on which the Python loops produce nothing
and the function returns `None`). -/
def find_solution_expr_go : ℕ → List (ℚ × String) → ℚ → ℚ → Option String
  | 0, _, _, _ => none
  | fuel + 1, items, target, tol =>
    match items with
    | [x] => if ratAbs (x.1 - target) < tol then some x.2 else none
    | items =>
      (pairIndices items.length).findSome? (fun ij =>
        ((candidates ((items.getD ij.1 (0, "")).1) ((items.getD ij.2 (0, "")).1)
            ((items.getD ij.1 (0, "")).2) ((items.getD ij.2 (0, "")).2)).findSome? (fun c =>
          find_solution_expr_go fuel (removeTwo items ij.1 ij.2 ++ [c]) target tol)))

/-- `find_solution_expr(nums, exprs, target, tol=1e-6)` (bot.py lines
612-641), with the parallel `nums`/`exprs` lists paired up. -/
def find_solution_expr (items : List (ℚ × String)) (target : ℚ)
    (tol : ℚ := 1/10^6) : Option String :=
  find_solution_expr_go items.length items target tol

/-- `PRECOMPUTED_TRIPLETS` (bot.py lines 313-321): the 9 straight-line
adjacent index triples of the 10-node pyramid. -/
def PRECOMPUTED_TRIPLETS : List (ℕ × ℕ × ℕ) :=
  [(3, 4, 5),
   (6, 7, 8), (7, 8, 9),
   (0, 1, 3), (1, 3, 6), (2, 4, 7),
   (0, 2, 5), (1, 4, 8), (2, 5, 9)]

/-- Sorting of a triple of indices, `tuple(sorted(...))` in Python. -/
def sort3 (a b c : ℕ) : ℕ × ℕ × ℕ :=
  if a ≤ b then
    if b ≤ c then (a, b, c)
    else if a ≤ c then (a, c, b)
    else (c, a, b)
  else
    if a ≤ c then (b, a, c)
    else if b ≤ c then (b, c, a)
    else (c, b, a)

/-- `PRECOMPUTED_TRIPLETS_SORTED` (bot.py line 322); membership in the
Python set is membership in this list. -/
def PRECOMPUTED_TRIPLETS_SORTED : List (ℕ × ℕ × ℕ) :=
  PRECOMPUTED_TRIPLETS.map (fun t => sort3 t.1 t.2.1 t.2.2)

/-- Row of each pyramid index per the layout comment (bot.py lines 308-312). -/
def pyramidRow : List ℕ := [0, 1, 1, 2, 2, 2, 3, 3, 3, 3]

/-- Column of each pyramid index within its row. -/
def pyramidCol : List ℕ := [0, 0, 1, 0, 1, 2, 0, 1, 2, 3]

/-- Row lookup with default (indices are all below 10 in the table). -/
def rowOf (i : ℕ) : ℕ := pyramidRow.getD i 0

/-- Column lookup with default. -/
def colOf (i : ℕ) : ℕ := pyramidCol.getD i 0

/-- A horizontal triple: three consecutive cells of one row, lying in the
bottom two rows (rows 2 and 3) of the pyramid. -/
def isHorizontalTriple (t : ℕ × ℕ × ℕ) : Bool :=
  rowOf t.1 == rowOf t.2.1 && rowOf t.2.1 == rowOf t.2.2 && 2 ≤ rowOf t.1
    && colOf t.2.1 == colOf t.1 + 1 && colOf t.2.2 == colOf t.2.1 + 1

/-- A left-diagonal triple: rows increase by one, column constant. -/
def isLeftDiagTriple (t : ℕ × ℕ × ℕ) : Bool :=
  rowOf t.2.1 == rowOf t.1 + 1 && rowOf t.2.2 == rowOf t.2.1 + 1
    && colOf t.1 == colOf t.2.1 && colOf t.2.1 == colOf t.2.2

/-- A right-diagonal triple: rows increase by one, column increases by one. -/
def isRightDiagTriple (t : ℕ × ℕ × ℕ) : Bool :=
  rowOf t.2.1 == rowOf t.1 + 1 && rowOf t.2.2 == rowOf t.2.1 + 1
    && colOf t.2.1 == colOf t.1 + 1 && colOf t.2.2 == colOf t.2.1 + 1

/-- Brute-force oracle: every `(value, expression)` pair obtainable from
`items` by repeatedly replacing a pair of entries with one of the
`candidates` results, exactly as the solver does (same pair enumeration,
same operator set, same `1e-12` division guard), but collecting all
leaves instead of testing them against a target. -/
def reachGo : ℕ → List (ℚ × String) → List (ℚ × String)
  | 0, _ => []
  | fuel + 1, items =>
    match items with
    | [x] => [x]
    | items =>
      (pairIndices items.length).flatMap (fun ij =>
        ((candidates ((items.getD ij.1 (0, "")).1) ((items.getD ij.2 (0, "")).1)
            ((items.getD ij.1 (0, "")).2) ((items.getD ij.2 (0, "")).2)).flatMap (fun c =>
          reachGo fuel (removeTwo items ij.1 ij.2 ++ [c]))))

/-- All `(value, expression)` pairs the solver's own operator set can
produce from `items`. -/
def reachablePairs (items : List (ℚ × String)) : List (ℚ × String) :=
  reachGo items.length items

/-- Candidate list for a pair under standard arithmetic: identical to
`candidates` except that a division is admitted whenever its divisor is
nonzero (no `1e-12` cutoff).  This is the operator set the spec's
"reachable by some sequence of the four operators ... standard
arithmetic" refers to. -/
def candidatesStd (a b : ℚ) (ea eb : String) : List (ℚ × String) :=
  [(a + b, "(" ++ ea ++ "+" ++ eb ++ ")"),
   (a * b, "(" ++ ea ++ "*" ++ eb ++ ")"),
   (a - b, "(" ++ ea ++ "-" ++ eb ++ ")"),
   (b - a, "(" ++ eb ++ "-" ++ ea ++ ")")]
  ++ (if b ≠ 0 then [(a / b, "(" ++ ea ++ "/" ++ eb ++ ")")] else [])
  ++ (if a ≠ 0 then [(b / a, "(" ++ eb ++ "/" ++ ea ++ ")")] else [])

/-- Brute-force oracle under standard arithmetic (divisions by any
nonzero divisor allowed). -/
def reachStdGo : ℕ → List (ℚ × String) → List (ℚ × String)
  | 0, _ => []
  | fuel + 1, items =>
    match items with
    | [x] => [x]
    | items =>
      (pairIndices items.length).flatMap (fun ij =>
        ((candidatesStd ((items.getD ij.1 (0, "")).1) ((items.getD ij.2 (0, "")).1)
            ((items.getD ij.1 (0, "")).2) ((items.getD ij.2 (0, "")).2)).flatMap (fun c =>
          reachStdGo fuel (removeTwo items ij.1 ij.2 ++ [c]))))

/-- All `(value, expression)` pairs reachable from `items` with the four
operators under standard arithmetic. -/
def reachableStdPairs (items : List (ℚ × String)) : List (ℚ × String) :=
  reachStdGo items.length items

/-- Spec-side pair enumeration: all index pairs `(i, j)` with `i < j`
over the current positions, listed in index (lexicographic) order.
Written from the spec's words; compared with the code's `pairIndices`. -/
def specPairs (n : ℕ) : List (ℕ × ℕ) :=
  ((List.range n).flatMap (fun i => (List.range n).map (fun j => (i, j)))).filter
    (fun p => p.1 < p.2)

/-- Spec-side operator enumeration for one pair, in the order stated by
the spec: add, multiply, subtract (left-right), subtract (right-left),
divide (left/right), divide (right/left), divisions guarded against a
near-zero divisor. -/
def specOperatorResults (a b : ℚ) (ea eb : String) : List (ℚ × String) :=
  [(a + b, "(" ++ ea ++ "+" ++ eb ++ ")"),
   (a * b, "(" ++ ea ++ "*" ++ eb ++ ")"),
   (a - b, "(" ++ ea ++ "-" ++ eb ++ ")"),
   (b - a, "(" ++ eb ++ "-" ++ ea ++ ")")]
  ++ (if (1 : ℚ)/10^12 < ratAbs b then [(a / b, "(" ++ ea ++ "/" ++ eb ++ ")")] else [])
  ++ (if (1 : ℚ)/10^12 < ratAbs a then [(b / a, "(" ++ eb ++ "/" ++ ea ++ ")")] else [])

/-- Spec-side solver: same reduce-by-pairing search, with the pair list
and operator list written from the spec's exploration-order contract,
returning the first success in that order. -/
def specSolveGo : ℕ → List (ℚ × String) → ℚ → ℚ → Option String
  | 0, _, _, _ => none
  | fuel + 1, items, target, tol =>
    match items with
    | [x] => if ratAbs (x.1 - target) < tol then some x.2 else none
    | items =>
      (specPairs items.length).findSome? (fun ij =>
        ((specOperatorResults ((items.getD ij.1 (0, "")).1) ((items.getD ij.2 (0, "")).1)
            ((items.getD ij.1 (0, "")).2) ((items.getD ij.2 (0, "")).2)).findSome? (fun c =>
          specSolveGo fuel (removeTwo items ij.1 ij.2 ++ [c]) target tol)))

/-- Spec-side solver entry point. -/
def specSolve (items : List (ℚ × String)) (target : ℚ) (tol : ℚ := 1/10^6) : Option String :=
  specSolveGo items.length items target tol

/-- `chr(ord('A') + i)`. -/
def labelChar (i : ℕ) : Char := Char.ofNat (65 + i)

/-- `''.join(chr(ord('A') + i) for i in path)` for an index triple. -/
def tripleLabel (t : ℕ × ℕ × ℕ) : String :=
  String.mk [labelChar t.1, labelChar t.2.1, labelChar t.2.2]

/-- The `(float(numbers[i]), str(numbers[i]))` item handed to the solver
for pyramid position `i`. -/
def intItem (numbers : List ℤ) (i : ℕ) : ℚ × String :=
  (((numbers.getD i 0 : ℤ) : ℚ), toString (numbers.getD i 0))

/-- The per-round solution table: the `all_solutions` dictionary built in
`cmd_new` / `EngineFacade.prepare_round` (bot.py lines 861-868) by running
the solver over every precomputed triple against the round's target. -/
def compute_all_solutions (numbers : List ℤ) (target : ℤ) : List (String × String) :=
  PRECOMPUTED_TRIPLETS.filterMap (fun t =>
    match find_solution_expr [intItem numbers t.1, intItem numbers t.2.1, intItem numbers t.2.2]
        (target : ℚ) with
    | some sol => some (tripleLabel t, sol)
    | none => none)

/-- The deterministic fallback tail of `generate_solvable_puzzle`
(bot.py lines 677-683), applied to the freshly drawn numbers: target is
the sum of the first three numbers and the sample solution is the
labelled trivial triple-sum string. -/
def generate_solvable_puzzle_fallback (nums : List ℤ) : List ℤ × ℤ × String :=
  (nums, (nums.take 3).sum,
   "[ABC] (" ++ toString (nums.getD 0 0) ++ "+" ++ toString (nums.getD 1 0)
     ++ "+" ++ toString (nums.getD 2 0) ++ ")")

/-- One row of the `answers` table restricted to a single chat (columns
`user_id`, `expression`, `correct`); list order is insertion order, which
refines the `ts ASC` ordering used by the first-solver query. -/
structure AnswerRec where
  user : ℤ
  expression : String
  correct : Bool
deriving DecidableEq

/-- One row of the `scores` table restricted to a single chat. -/
structure ScoreRow where
  user : ℤ
  username : String
  score : ℤ
deriving DecidableEq

/-- The state of one chat: the active `games` row, the engine's
valid-combo cache and solved set, the `answers` and `scores` tables, and
the two pending timers. -/
structure ChatState where
  activeGame : Bool
  numbers : List ℤ
  target : ℤ
  validCombos : List (String × String)
  solved : List String
  answers : List AnswerRec
  scores : List ScoreRow
  expiryTimer : Bool
  reminderTimer : Bool
deriving DecidableEq

/-- bot.py line 25. -/
def FIRST_CORRECT_POINTS : ℤ := 2

/-- bot.py line 26. -/
def LATER_CORRECT_POINTS : ℤ := 1

/-- bot.py line 28. -/
def WRONG_PENALTY : ℤ := 1

/-- `user_already_correct_combo` (bot.py lines 426-432). -/
def user_already_correct_combo (answers : List AnswerRec) (uid : ℤ) (key : String) : Bool :=
  answers.any (fun r => r.user == uid && r.expression == key && r.correct)

/-- `get_combo_first_solver` (bot.py lines 416-424): earliest correct
record for the combination key. -/
def get_combo_first_solver (answers : List AnswerRec) (key : String) : Option ℤ :=
  (answers.find? (fun r => r.expression == key && r.correct)).map (fun r => r.user)

/-- `count_correct_answers` (bot.py lines 405-409). -/
def count_correct_answers (answers : List AnswerRec) : ℕ :=
  (answers.filter (fun r => r.correct)).length

/-- `add_score` (bot.py lines 434-445): update the row if it exists,
else insert a fresh row whose total is `delta`; returns the rows and the
new total. -/
def add_score (rows : List ScoreRow) (uid : ℤ) (uname : String) (delta : ℤ) :
    List ScoreRow × ℤ :=
  match rows.find? (fun r => r.user == uid) with
  | some row =>
    (rows.map (fun r => if r.user == uid then { r with score := row.score + delta, username := uname } else r),
     row.score + delta)
  | none => (rows ++ [{ user := uid, username := uname, score := delta }], delta)

/-- `get_user_score` (bot.py lines 447-451): `0` when no row exists. -/
def get_user_score (rows : List ScoreRow) (uid : ℤ) : ℤ :=
  match rows.find? (fun r => r.user == uid) with
  | some row => row.score
  | none => 0

/-- The unsorted label string `''.join(chr(ord('A') + i) for i in idxs)`
(bot.py line 243), used as the cache key. -/
def keyLabel (i1 i2 i3 : ℕ) : String :=
  String.mk [labelChar i1, labelChar i2, labelChar i3]

/-- The combination key `''.join(sorted(labels))` (bot.py line 254).
Sorting the three indices and then mapping to labels agrees with sorting
the three label characters, because `labelChar` is monotone. -/
def comboKey (i1 i2 i3 : ℕ) : String :=
  keyLabel (sort3 i1 i2 i3).1 (sort3 i1 i2 i3).2.1 (sort3 i1 i2 i3).2.2

/-- Lines 242-248 of bot.py: consult the round's valid-combo cache under
the unsorted label key, and fall back to a direct solver call on a miss. -/
def cache_or_solver (s : ChatState) (i1 i2 i3 : ℕ) : Option String :=
  match s.validCombos.lookup (keyLabel i1 i2 i3) with
  | some e => some e
  | none =>
    find_solution_expr [intItem s.numbers i1, intItem s.numbers i2, intItem s.numbers i3]
      (s.target : ℚ)

/-- The distinct user-facing outcomes of `EngineFacade.check_answer`. -/
inductive Outcome where
  | ignored
  | invalidAdjacent
  | wrongAnswer (penalty : ℤ) (newscore : ℤ)
  | alreadyScored
  | alreadyTaken
  | correct (points newscore : ℤ) (solvedCount total : ℕ)
deriving DecidableEq

/-- `GameEngine.add_solved_combo` (bot.py lines 107-110): the solved set
with the key added (list kept duplicate-free, mirroring the Python set). -/
def add_solved_combo (solved : List String) (key : String) : List String :=
  if key ∈ solved then solved else solved ++ [key]

/-- Points for a credited answer (bot.py lines 264-265). -/
def answer_points (answers : List AnswerRec) : ℤ :=
  if count_correct_answers answers = 0 then FIRST_CORRECT_POINTS else LATER_CORRECT_POINTS

/-- `GameEngine.all_solved` (bot.py lines 112-113) followed by
`EngineFacade.finish_round_with_summary` (lines 208-224): when every
cached combination is solved (and the cache is non-empty) the game row
is deactivated and both pending timers are cancelled. -/
def finish_if_all_solved (s : ChatState) : ChatState :=
  if s.validCombos.length ≤ s.solved.length ∧ 0 < s.validCombos.length then
    { s with activeGame := false, expiryTimer := false, reminderTimer := false }
  else s

/-- The crediting branch of `check_answer` (bot.py lines 264-271): count
the round's correct records, award 2 or 1 points, update the score row,
append the correct record, grow the solved set, then end the round early
if everything is solved. -/
def credit_step (s : ChatState) (uid : ℤ) (uname : String) (key : String) :
    ChatState × Outcome :=
  (finish_if_all_solved
    { s with scores := (add_score s.scores uid uname (answer_points s.answers)).1,
             answers := s.answers ++ [{ user := uid, expression := key, correct := true }],
             solved := add_solved_combo s.solved key },
   Outcome.correct (answer_points s.answers)
     (add_score s.scores uid uname (answer_points s.answers)).2
     (add_solved_combo s.solved key).length s.validCombos.length)

/-- `EngineFacade.check_answer` (bot.py lines 227-271) for one chat, as a
pure transition on `ChatState`.  The caller has already parsed the text
into three label indices `i1 i2 i3` (the regex at line 233). -/
def check_answer (s : ChatState) (uid : ℤ) (uname : String) (i1 i2 i3 : ℕ) :
    ChatState × Outcome :=
  if s.activeGame then
    if sort3 i1 i2 i3 ∈ PRECOMPUTED_TRIPLETS_SORTED then
      match cache_or_solver s i1 i2 i3 with
      | none =>
        ({ s with answers := s.answers ++ [{ user := uid, expression := comboKey i1 i2 i3, correct := false }],
                  scores := (add_score s.scores uid uname (-WRONG_PENALTY)).1 },
         Outcome.wrongAnswer WRONG_PENALTY (add_score s.scores uid uname (-WRONG_PENALTY)).2)
      | some _ =>
        if user_already_correct_combo s.answers uid (comboKey i1 i2 i3) then
          ({ s with answers := s.answers ++ [{ user := uid, expression := comboKey i1 i2 i3, correct := true }] },
           Outcome.alreadyScored)
        else if get_combo_first_solver s.answers (comboKey i1 i2 i3) ≠ none
            ∧ get_combo_first_solver s.answers (comboKey i1 i2 i3) ≠ some uid then
          ({ s with answers := s.answers ++ [{ user := uid, expression := comboKey i1 i2 i3, correct := true }] },
           Outcome.alreadyTaken)
        else credit_step s uid uname (comboKey i1 i2 i3)
    else
      ({ s with answers := s.answers ++ [{ user := uid, expression := comboKey i1 i2 i3, correct := false }] },
       Outcome.invalidAdjacent)
  else (s, Outcome.ignored)

/-- A concrete mid-round chat state with two cached valid combinations
and no answers yet, used to instantiate engine theorems. -/
def sampleState : ChatState :=
  { activeGame := true, numbers := [1, 2, 3, 1, 2, 3, 1, 1, 1, 1], target := 6,
    validCombos := [("DEF", "((1+2)+3)"), ("GHI", "((1+2)+3)")], solved := [],
    answers := [], scores := [], expiryTimer := true, reminderTimer := true }

/-- A concrete chat state whose solution table has exactly one entry,
used to instantiate the early-end theorem. -/
def sampleStateOne : ChatState :=
  { activeGame := true, numbers := [1, 2, 3, 1, 2, 3, 1, 1, 1, 1], target := 6,
    validCombos := [("DEF", "((1+2)+3)")], solved := [],
    answers := [], scores := [], expiryTimer := true, reminderTimer := true }

/-- A concrete chat state whose target no legal triple can reach (all
numbers 1, target 1000000) with an empty valid-combo cache, used to
instantiate the wrong-answer penalty theorem. -/
def sampleStateWrong : ChatState :=
  { activeGame := true, numbers := [1, 1, 1, 1, 1, 1, 1, 1, 1, 1], target := 1000000,
    validCombos := [], solved := [],
    answers := [], scores := [], expiryTimer := true, reminderTimer := true }

/-! ### Supporting lemmas -/

/-- Filtering `range n` by `i < ·` gives the Python `range(i+1, n)`. -/
theorem range_filter_lt (n i : ℕ) :
    (List.range n).filter (fun j => decide (i < j)) = List.range' (i+1) (n - (i+1)) := by
  induction n with
  | zero => simp
  | succ n ih =>
    rw [List.range_succ, List.filter_append, ih]
    by_cases h : i < n
    · have h1 : n - (i+1) + 1 = n + 1 - (i+1) := by omega
      have h2 : i + 1 + 1 * (n - (i+1)) = n := by omega
      simp only [List.filter_cons, List.filter_nil, decide_eq_true_eq, if_pos h]
      rw [← h1, List.range'_concat, h2]
    · have h1 : n - (i+1) = 0 := by omega
      have h2 : n + 1 - (i+1) = 0 := by omega
      simp only [List.filter_cons, List.filter_nil, decide_eq_true_eq, if_neg h]
      simp [h1, h2]

/-- Filtering distributes over `flatMap`. -/
theorem filter_flatMap (l : List α) (f : α → List β) (p : β → Bool) :
    (l.flatMap f).filter p = l.flatMap (fun a => (f a).filter p) := by
  induction l with
  | nil => rfl
  | cons a l ih => simp [List.flatMap_cons, List.filter_append, ih]

/-- The code's nested loops enumerate exactly the spec's filtered pair
list. -/
theorem pairIndices_eq_specPairs (n : ℕ) : pairIndices n = specPairs n := by
  unfold pairIndices specPairs
  rw [filter_flatMap]
  refine congrArg _ (funext fun i => ?_)
  rw [List.filter_map]
  have hc : ((fun p : ℕ × ℕ => decide (p.1 < p.2)) ∘ fun j => (i, j))
      = (fun j => decide (i < j)) := rfl
  rw [hc, range_filter_lt]

/-- Membership description of the pair enumeration. -/
theorem mem_pairIndices (n i j : ℕ) : (i, j) ∈ pairIndices n ↔ i < j ∧ j < n := by
  unfold pairIndices
  simp only [List.mem_flatMap, List.mem_map, List.mem_range, List.mem_range'_1]
  constructor
  · rintro ⟨a, ha, b, hb, heq⟩
    obtain ⟨rfl, rfl⟩ : a = i ∧ b = j := by
      exact ⟨congrArg Prod.fst heq, congrArg Prod.snd heq⟩
    omega
  · rintro ⟨hij, hjn⟩
    exact ⟨i, by omega, j, by omega, rfl⟩

/-- The two candidate-list definitions coincide. -/
theorem candidates_eq_specOperatorResults (a b : ℚ) (ea eb : String) :
    candidates a b ea eb = specOperatorResults a b ea eb := rfl

/-- The spec-side solver coincides with the code's solver. -/
theorem specSolveGo_eq_find_go :
    ∀ (fuel : ℕ) (items : List (ℚ × String)) (target tol : ℚ),
      specSolveGo fuel items target tol = find_solution_expr_go fuel items target tol := by
  intro fuel
  induction fuel with
  | zero => intro items target tol; rfl
  | succ fuel ih =>
    intro items target tol
    match items with
    | [] =>
      simp only [specSolveGo, find_solution_expr_go, ih, pairIndices_eq_specPairs,
        candidates_eq_specOperatorResults]
    | [x] => rfl
    | x :: y :: rest =>
      simp only [specSolveGo, find_solution_expr_go, ih, pairIndices_eq_specPairs,
        candidates_eq_specOperatorResults]

/-- If a bounded `findSome?` finds nothing, no element succeeds. -/
theorem findSome?_none_of (f : α → Option β) (l : List α)
    (h : l.findSome? f = none) : ∀ a ∈ l, f a = none :=
  List.findSome?_eq_none_iff.mp h

/-- Every successful run of the solver returns the expression string of
a reachable `(value, expression)` pair whose value is within tolerance
of the target. -/
theorem find_go_some :
    ∀ (fuel : ℕ) (items : List (ℚ × String)) (target tol : ℚ) (e : String),
      find_solution_expr_go fuel items target tol = some e →
      ∃ v, (v, e) ∈ reachGo fuel items ∧ ratAbs (v - target) < tol := by
  intro fuel
  induction fuel with
  | zero => intro items target tol e h; simp [find_solution_expr_go] at h
  | succ fuel ih =>
    intro items target tol e h
    match items with
    | [x] =>
      simp only [find_solution_expr_go] at h
      split at h
      · obtain rfl : x.2 = e := Option.some.inj h
        exact ⟨x.1, by simp [reachGo], by assumption⟩
      · exact absurd h (by simp)
    | [] =>
      simp only [find_solution_expr_go] at h
      obtain ⟨ij, hij, h2⟩ := List.exists_of_findSome?_eq_some h
      simp [pairIndices] at hij
    | x :: y :: rest =>
      simp only [find_solution_expr_go] at h
      obtain ⟨ij, hij, h2⟩ := List.exists_of_findSome?_eq_some h
      obtain ⟨c, hc, h3⟩ := List.exists_of_findSome?_eq_some h2
      obtain ⟨v, hv, htol⟩ := ih _ target tol e h3
      refine ⟨v, ?_, htol⟩
      simp only [reachGo, List.mem_flatMap]
      exact ⟨ij, hij, c, hc, hv⟩

/-- If the solver fails, no reachable pair is within tolerance of the
target. -/
theorem find_go_none :
    ∀ (fuel : ℕ) (items : List (ℚ × String)) (target tol : ℚ),
      find_solution_expr_go fuel items target tol = none →
      ∀ v e, (v, e) ∈ reachGo fuel items → ¬ ratAbs (v - target) < tol := by
  intro fuel
  induction fuel with
  | zero => intro items target tol _ v e hv; simp [reachGo] at hv
  | succ fuel ih =>
    intro items target tol h v e hv
    match items with
    | [x] =>
      simp only [reachGo, List.mem_singleton] at hv
      simp only [find_solution_expr_go] at h
      split at h
      · exact absurd h (by simp)
      · obtain ⟨rfl, rfl⟩ : v = x.1 ∧ e = x.2 := by
          constructor
          · exact congrArg Prod.fst hv
          · exact congrArg Prod.snd hv
        assumption
    | [] =>
      simp [reachGo, pairIndices] at hv
    | x :: y :: rest =>
      simp only [find_solution_expr_go] at h
      simp only [reachGo, List.mem_flatMap] at hv
      obtain ⟨ij, hij, c, hc, hmem⟩ := hv
      have h2 := findSome?_none_of _ _ h ij hij
      have h3 := findSome?_none_of _ _ h2 c hc
      exact ih _ target tol h3 v e hmem

/-! ### Claim theorems -/

/-- C1 (amended).  The solver succeeds if and only if some
`(value, expression)` pair produced by its own operator set (the four
operators with each division guarded by `abs(divisor) > 1e-12`) has a
value within tolerance of the target, and any returned expression string
is the expression of such a pair — its value, which is what the
expression evaluates to under standard arithmetic, is within tolerance
of the target.  (The claim as frozen instead demands success for every
target reachable under unrestricted standard arithmetic; the
counterexample below shows the 1e-12 guard breaks that reading.) -/
theorem find_solution_expr_sound_complete (items : List (ℚ × String)) (target tol : ℚ) :
    ((find_solution_expr items target tol).isSome ↔
      ∃ p ∈ reachablePairs items, ratAbs (p.1 - target) < tol) ∧
    (∀ e, find_solution_expr items target tol = some e →
      ∃ v, (v, e) ∈ reachablePairs items ∧ ratAbs (v - target) < tol) := by
  constructor
  · constructor
    · intro h
      obtain ⟨e, he⟩ := Option.isSome_iff_exists.mp h
      obtain ⟨v, hv, htol⟩ := find_go_some _ _ _ _ _ he
      exact ⟨(v, e), hv, htol⟩
    · rintro ⟨p, hp, htol⟩
      by_contra hns
      have hnone : find_solution_expr items target tol = none := by
        cases hcase : find_solution_expr items target tol with
        | none => rfl
        | some e => rw [hcase] at hns; simp at hns
      exact find_go_none _ _ _ _ hnone p.1 p.2 (by simpa using hp) htol
  · intro e he
    exact find_go_some _ _ _ _ _ he

/-- Witness for C1's amended theorem at a concrete input: the solver
finds `(5+(2+3))` for numbers 2, 3, 5 and target 10, and that string is
the expression of a reachable pair within tolerance. -/
theorem find_solution_expr_sound_complete_witness :
    find_solution_expr [((2 : ℚ), "2"), (3, "3"), (5, "5")] 10 (1/10^6) = some "(5+(2+3))" ∧
    ∃ v, (v, "(5+(2+3))") ∈ reachablePairs [((2 : ℚ), "2"), (3, "3"), (5, "5")] ∧
      ratAbs (v - 10) < 1/10^6 :=
  ⟨by decide,
   (find_solution_expr_sound_complete [((2 : ℚ), "2"), (3, "3"), (5, "5")] 10 (1/10^6)).2
     "(5+(2+3))" (by decide)⟩

/-- C1 counterexample.  With numbers `1e-13, 2, 3` the target `6e13` is
reachable under standard arithmetic — `2/((1e-13)/3)` evaluates to it
exactly — yet `find_solution_expr` returns `none`, because every route
to the target must divide by a value of absolute value at most `1e-12`,
which the hard-coded guard rejects.  So the claim "for any 3 numbers and
a target reachable by some sequence of the four operators the solver
returns a non-none expression" is false for the code. -/
theorem find_solution_expr_misses_std_reachable :
    (∃ p ∈ reachableStdPairs [((1 : ℚ)/10^13, "t"), (2, "2"), (3, "3")],
      ratAbs (p.1 - 6*10^13) < 1/10^6) ∧
    find_solution_expr [((1 : ℚ)/10^13, "t"), (2, "2"), (3, "3")] (6*10^13) (1/10^6) = none :=
  ⟨⟨((6*10^13 : ℚ), "(2/(t/3))"), by decide, by decide⟩, by decide⟩

/-- C4 (amended).  In `find_solution_expr` the division candidates are
generated if and only if the divisor's absolute value exceeds the fixed
constant `1e-12`; the `tol` parameter plays no role in the guard
(`candidates` does not even receive it).  When the guard fails, no
candidate value other than the four add/multiply/subtract results and
the opposite-direction division is produced. -/
theorem candidates_div_guard (a b : ℚ) (ea eb : String) :
    ((1 : ℚ)/10^12 < ratAbs b →
      (a / b, "(" ++ ea ++ "/" ++ eb ++ ")") ∈ candidates a b ea eb) ∧
    (¬ (1 : ℚ)/10^12 < ratAbs b → ∀ v s, (v, s) ∈ candidates a b ea eb →
      v = a + b ∨ v = a * b ∨ v = a - b ∨ v = b - a ∨ v = b / a) ∧
    (candidates a b ea eb).length
      = 4 + (if (1 : ℚ)/10^12 < ratAbs b then 1 else 0)
          + (if (1 : ℚ)/10^12 < ratAbs a then 1 else 0) := by
  refine ⟨?_, ?_, ?_⟩
  · intro hb
    unfold candidates
    rw [if_pos hb]
    simp
  · intro hb v s hmem
    by_cases ha : (1 : ℚ)/10^12 < ratAbs a <;>
      simp only [candidates, hb, ha, if_true, if_false, List.mem_append, List.mem_cons,
        List.not_mem_nil, or_false, Prod.mk.injEq] at hmem <;> tauto
  · by_cases hb : (1 : ℚ)/10^12 < ratAbs b <;>
      by_cases ha : (1 : ℚ)/10^12 < ratAbs a <;>
      simp only [candidates, hb, ha, if_true, if_false] <;> simp

/-- Witness for C4's amended theorem at a concrete input. -/
theorem candidates_div_guard_witness :
    ((1 : ℚ)/10^12 < ratAbs 1) ∧
    (((2 : ℚ)/1, "(2/1)") ∈ candidates 2 1 "2" "1") :=
  ⟨by decide, (candidates_div_guard 2 1 "2" "1").1 (by decide)⟩

/-- C4 counterexample.  The claim says divisions are generated only when
the divisor's absolute value is at least the tolerance `tol = 1e-6`, so
no evaluated division may have a divisor within tolerance of zero.  But
with divisor `1e-9` — well inside the claimed dead zone, yet above the
code's actual `1e-12` cutoff — the solver evaluates the division and
returns it: dividing 1 by `1e-9` reaches the target `1e9`. -/
theorem find_solution_expr_divides_below_tol :
    ratAbs ((1 : ℚ)/10^9) < 1/10^6 ∧
    find_solution_expr [((1 : ℚ), "1"), (1/10^9, "x")] (10^9) (1/10^6) = some "(1/x)" :=
  ⟨by decide, by decide⟩

/-- C5.  The solver is a deterministic function of its inputs (it is a
plain function of them), its pair enumeration is exactly the spec's
"index order (i<j) over the current positions" list, its operator
enumeration is exactly the spec's add, multiply, subtract(left-right),
subtract(right-left), divide(left/right), divide(right/left) list, and
the whole search coincides with the spec-side first-success-in-that-order
solver `specSolve`. -/
theorem find_solution_expr_order (n i j : ℕ) (a b : ℚ) (ea eb : String)
    (items : List (ℚ × String)) (target tol : ℚ) :
    pairIndices n = specPairs n ∧
    ((i, j) ∈ pairIndices n ↔ i < j ∧ j < n) ∧
    candidates a b ea eb = specOperatorResults a b ea eb ∧
    find_solution_expr items target tol = specSolve items target tol := by
  refine ⟨pairIndices_eq_specPairs n, mem_pairIndices n i j,
    candidates_eq_specOperatorResults a b ea eb, ?_⟩
  unfold find_solution_expr specSolve
  exact (specSolveGo_eq_find_go items.length items target tol).symm

/-- C9.  The fixed legal-triple table has exactly 9 triples; each triple
consists of 3 distinct indices below 10; the sorted forms are pairwise
distinct; and exactly 3 triples are horizontal (within the bottom two
rows), 3 left-diagonal and 3 right-diagonal. -/
theorem precomputed_triplets_adjacency :
    PRECOMPUTED_TRIPLETS.length = 9 ∧
    (PRECOMPUTED_TRIPLETS.all fun t =>
      decide (t.1 < 10) && decide (t.2.1 < 10) && decide (t.2.2 < 10)
        && decide (t.1 ≠ t.2.1) && decide (t.1 ≠ t.2.2) && decide (t.2.1 ≠ t.2.2)) = true ∧
    (PRECOMPUTED_TRIPLETS.map (fun t => sort3 t.1 t.2.1 t.2.2)).Nodup ∧
    (PRECOMPUTED_TRIPLETS.filter isHorizontalTriple).length = 3 ∧
    (PRECOMPUTED_TRIPLETS.filter isLeftDiagTriple).length = 3 ∧
    (PRECOMPUTED_TRIPLETS.filter isRightDiagTriple).length = 3 := by
  decide

/-- C2 (code evaluation at the failing input).  On the fallback path the
generator does return target = sum of the first three drawn numbers with
the trivial triple-sum sample, but for the draw
`[10,10,10,1,1,1,1,1,1,1]` the round's solution table — computed by
`cmd_new` over the 9 legal triples — is empty, and the fallback's own
triple `(0,1,2)` (labels "ABC") is not a legal triple, so no round's
solution table can ever contain the fallback entry. -/
theorem generator_fallback_breaks_table_claim :
    generate_solvable_puzzle_fallback [10,10,10,1,1,1,1,1,1,1]
      = ([10,10,10,1,1,1,1,1,1,1], 30, "[ABC] (10+10+10)") ∧
    compute_all_solutions [10,10,10,1,1,1,1,1,1,1] 30 = [] ∧
    (0, 1, 2) ∉ PRECOMPUTED_TRIPLETS ∧
    (PRECOMPUTED_TRIPLETS.all fun t => tripleLabel t != "ABC") = true := by
  refine ⟨by decide, by decide, by decide, by decide⟩

/-- `add_score` adds `delta` to the stored total (0 when no row exists),
both in its returned total and in the updated table. -/
theorem add_score_spec (rows : List ScoreRow) (uid : ℤ) (uname : String) (delta : ℤ) :
    (add_score rows uid uname delta).2 = get_user_score rows uid + delta ∧
    get_user_score (add_score rows uid uname delta).1 uid = get_user_score rows uid + delta := by
  unfold add_score get_user_score
  cases hf : rows.find? (fun r => r.user == uid) with
  | none =>
    simp only [hf]
    constructor
    · simp
    · rw [List.find?_append, hf]
      simp
  | some row =>
    have hp := List.find?_some hf
    have hpe : row.user = uid := by simpa using hp
    simp only [hf]
    constructor
    · trivial
    · rw [List.find?_map]
      have hcomp : ((fun r : ScoreRow => r.user == uid) ∘ fun r : ScoreRow =>
          if r.user == uid then { r with score := row.score + delta, username := uname } else r)
          = (fun r : ScoreRow => r.user == uid) := by
        funext r
        by_cases hr : r.user = uid <;> simp [beq_iff_eq, hr]
      rw [hcomp, hf]
      simp [hpe]

/-- If some user is the recorded first solver of a key, that user has a
correct record for the key. -/
theorem first_solver_already (answers : List AnswerRec) (key : String) (u : ℤ)
    (h : get_combo_first_solver answers key = some u) :
    user_already_correct_combo answers u key = true := by
  unfold get_combo_first_solver at h
  rw [Option.map_eq_some'] at h
  obtain ⟨r, hr, hru⟩ := h
  have hmem := List.mem_of_find?_eq_some hr
  have hp := List.find?_some hr
  simp only [Bool.and_eq_true] at hp
  unfold user_already_correct_combo
  rw [List.any_eq_true]
  refine ⟨r, hmem, ?_⟩
  simp [Bool.and_eq_true, hru, hp.1, hp.2]

/-- `finish_if_all_solved` only touches the active flag and the timers. -/
theorem finish_if_all_solved_fields (s : ChatState) :
    (finish_if_all_solved s).numbers = s.numbers ∧
    (finish_if_all_solved s).target = s.target ∧
    (finish_if_all_solved s).validCombos = s.validCombos ∧
    (finish_if_all_solved s).solved = s.solved ∧
    (finish_if_all_solved s).answers = s.answers ∧
    (finish_if_all_solved s).scores = s.scores := by
  unfold finish_if_all_solved
  split <;> exact ⟨rfl, rfl, rfl, rfl, rfl, rfl⟩

/-- The cache-then-solver lookup only depends on the cache, the numbers
and the target. -/
theorem cache_or_solver_congr (s t : ChatState) (i1 i2 i3 : ℕ)
    (h1 : t.validCombos = s.validCombos) (h2 : t.numbers = s.numbers)
    (h3 : t.target = s.target) :
    cache_or_solver t i1 i2 i3 = cache_or_solver s i1 i2 i3 := by
  unfold cache_or_solver
  rw [h1, h2, h3]

/-- Inversion of `check_answer` at a credited (`Outcome.correct`)
result: the game was active, the triple legal, a solution was available,
the submitter had no prior correct record for the key, no one else had
claimed the key, the outcome's components are the credited values, and
the call reduced to the crediting branch. -/
theorem check_answer_correct_inversion (s : ChatState) (uid : ℤ) (uname : String)
    (i1 i2 i3 : ℕ) (pts ns : ℤ) (sc tot : ℕ)
    (h : (check_answer s uid uname i1 i2 i3).2 = Outcome.correct pts ns sc tot) :
    s.activeGame = true ∧
    sort3 i1 i2 i3 ∈ PRECOMPUTED_TRIPLETS_SORTED ∧
    (∃ e, cache_or_solver s i1 i2 i3 = some e) ∧
    user_already_correct_combo s.answers uid (comboKey i1 i2 i3) = false ∧
    get_combo_first_solver s.answers (comboKey i1 i2 i3) = none ∧
    pts = answer_points s.answers ∧
    ns = (add_score s.scores uid uname (answer_points s.answers)).2 ∧
    sc = (add_solved_combo s.solved (comboKey i1 i2 i3)).length ∧
    tot = s.validCombos.length ∧
    check_answer s uid uname i1 i2 i3 = credit_step s uid uname (comboKey i1 i2 i3) := by
  unfold check_answer at h
  split at h
  case isFalse hact => simp at h
  case isTrue hact =>
  split at h
  case isFalse hadj => simp at h
  case isTrue hadj =>
  split at h
  case h_1 heq => simp at h
  case h_2 e heq =>
  split at h
  case isTrue halready => simp at h
  case isFalse halready =>
  split at h
  case isTrue htaken => simp at h
  case isFalse htaken =>
  have h4 : user_already_correct_combo s.answers uid (comboKey i1 i2 i3) = false := by
    simpa using halready
  have h5 : get_combo_first_solver s.answers (comboKey i1 i2 i3) = none := by
    cases hfs : get_combo_first_solver s.answers (comboKey i1 i2 i3) with
    | none => rfl
    | some u =>
      exfalso
      by_cases hu : u = uid
      · subst hu
        rw [first_solver_already s.answers (comboKey i1 i2 i3) u hfs] at h4
        exact Bool.true_eq_false.mp h4
      · exact htaken ⟨by simp [hfs], by simp [hfs, hu]⟩
  unfold credit_step at h
  simp only [Outcome.correct.injEq] at h
  obtain ⟨hpts, hns, hsc, htot⟩ := h
  refine ⟨hact, hadj, ⟨e, heq⟩, h4, h5, hpts.symm, hns.symm, hsc.symm, htot.symm, ?_⟩
  unfold check_answer
  rw [if_pos hact, if_pos hadj, heq]
  rw [if_neg halready, if_neg htaken]

/-- C3.  Whenever a submission is credited (`Outcome.correct`), the
points awarded are `FIRST_CORRECT_POINTS = 2` exactly when zero correct
answer records exist for the chat's current puzzle at crediting time,
and `LATER_CORRECT_POINTS = 1` otherwise.  The count is over all correct
records of the round, not per combination, so the tier depends only on
whether any correct answer exists this round. -/
theorem check_answer_points_tier (s : ChatState) (uid : ℤ) (uname : String)
    (i1 i2 i3 : ℕ) (pts ns : ℤ) (sc tot : ℕ)
    (h : (check_answer s uid uname i1 i2 i3).2 = Outcome.correct pts ns sc tot) :
    pts = (if count_correct_answers s.answers = 0
      then FIRST_CORRECT_POINTS else LATER_CORRECT_POINTS) ∧
    (pts = FIRST_CORRECT_POINTS ↔ count_correct_answers s.answers = 0) := by
  obtain ⟨-, -, -, -, -, hpts, -⟩ :=
    check_answer_correct_inversion s uid uname i1 i2 i3 pts ns sc tot h
  constructor
  · rw [hpts]; rfl
  · rw [hpts]
    unfold answer_points
    by_cases hc : count_correct_answers s.answers = 0
    · simp [hc]
    · simp only [hc, if_neg, if_false, iff_false]
      unfold LATER_CORRECT_POINTS FIRST_CORRECT_POINTS
      exact fun hcontra => absurd hcontra (by decide)

/-- Witness for C3: on a fresh round with two cached combinations,
player 7's first credited answer yields 2 points, and 2 is the
first-correct tier exactly because no correct record exists yet. -/
theorem check_answer_points_tier_witness :
    (check_answer sampleState 7 "p" 3 4 5).2 = Outcome.correct 2 2 1 2 ∧
    ((2 : ℤ) = (if count_correct_answers sampleState.answers = 0
        then FIRST_CORRECT_POINTS else LATER_CORRECT_POINTS) ∧
      ((2 : ℤ) = FIRST_CORRECT_POINTS ↔ count_correct_answers sampleState.answers = 0)) :=
  ⟨by decide, check_answer_points_tier sampleState 7 "p" 3 4 5 2 2 1 2 (by decide)⟩

/-- C6.  If a credited answer reports a solved count at least the table
size with a non-empty table, the resulting state has the puzzle marked
inactive and both the expiry timer and the reminder timer cancelled. -/
theorem check_answer_all_solved_ends_round (s : ChatState) (uid : ℤ) (uname : String)
    (i1 i2 i3 : ℕ) (pts ns : ℤ) (sc tot : ℕ)
    (h : (check_answer s uid uname i1 i2 i3).2 = Outcome.correct pts ns sc tot)
    (hsc : tot ≤ sc) (htot : 0 < tot) :
    ((check_answer s uid uname i1 i2 i3).1).activeGame = false ∧
    ((check_answer s uid uname i1 i2 i3).1).expiryTimer = false ∧
    ((check_answer s uid uname i1 i2 i3).1).reminderTimer = false := by
  obtain ⟨-, -, -, -, -, -, -, hsc', htot', heqca⟩ :=
    check_answer_correct_inversion s uid uname i1 i2 i3 pts ns sc tot h
  subst hsc' htot'
  rw [heqca]
  unfold credit_step finish_if_all_solved
  rw [if_pos ⟨hsc, htot⟩]
  exact ⟨rfl, rfl, rfl⟩

/-- Witness for C6: with a one-entry solution table, crediting that
single combination immediately deactivates the round and cancels both
timers. -/
theorem check_answer_all_solved_ends_round_witness :
    (check_answer sampleStateOne 7 "p" 3 4 5).2 = Outcome.correct 2 2 1 1 ∧
    (((check_answer sampleStateOne 7 "p" 3 4 5).1).activeGame = false ∧
      ((check_answer sampleStateOne 7 "p" 3 4 5).1).expiryTimer = false ∧
      ((check_answer sampleStateOne 7 "p" 3 4 5).1).reminderTimer = false) :=
  ⟨by decide,
   check_answer_all_solved_ends_round sampleStateOne 7 "p" 3 4 5 2 2 1 1
     (by decide) (by decide) (by decide)⟩

/-- Field view of the crediting branch's resulting state. -/
theorem credit_step_fields (s : ChatState) (uid : ℤ) (uname : String) (key : String) :
    ((credit_step s uid uname key).1).validCombos = s.validCombos ∧
    ((credit_step s uid uname key).1).numbers = s.numbers ∧
    ((credit_step s uid uname key).1).target = s.target ∧
    ((credit_step s uid uname key).1).answers
      = s.answers ++ [{ user := uid, expression := key, correct := true }] ∧
    ((credit_step s uid uname key).1).scores
      = (add_score s.scores uid uname (answer_points s.answers)).1 := by
  unfold credit_step finish_if_all_solved
  split <;> exact ⟨rfl, rfl, rfl, rfl, rfl⟩

/-- C7.  If a player's submission of a combination is credited and the
round is still active afterwards, resubmitting the same combination
yields the "already scored" outcome and leaves the score table — hence
the player's score — unchanged; the first submission had increased the
player's total by the (positive) awarded points. -/
theorem check_answer_idempotent_per_combo (s : ChatState) (uid : ℤ) (uname : String)
    (i1 i2 i3 : ℕ) (pts ns : ℤ) (sc tot : ℕ)
    (h : (check_answer s uid uname i1 i2 i3).2 = Outcome.correct pts ns sc tot)
    (hact2 : ((check_answer s uid uname i1 i2 i3).1).activeGame = true) :
    (check_answer ((check_answer s uid uname i1 i2 i3).1) uid uname i1 i2 i3).2
      = Outcome.alreadyScored ∧
    ((check_answer ((check_answer s uid uname i1 i2 i3).1) uid uname i1 i2 i3).1).scores
      = ((check_answer s uid uname i1 i2 i3).1).scores ∧
    get_user_score ((check_answer s uid uname i1 i2 i3).1).scores uid
      = get_user_score s.scores uid + pts ∧
    0 < pts := by
  obtain ⟨hact, hadj, ⟨e, heq⟩, h4, h5, hpts, hns, hsc, htot, heqca⟩ :=
    check_answer_correct_inversion s uid uname i1 i2 i3 pts ns sc tot h
  rw [heqca] at hact2 ⊢
  obtain ⟨hvc, hnum, htar, hans, hscores⟩ := credit_step_fields s uid uname (comboKey i1 i2 i3)
  have hcs : cache_or_solver (credit_step s uid uname (comboKey i1 i2 i3)).1 i1 i2 i3
      = some e := by
    rw [cache_or_solver_congr s _ i1 i2 i3 hvc hnum htar]
    exact heq
  have halready2 : user_already_correct_combo
      ((credit_step s uid uname (comboKey i1 i2 i3)).1).answers uid (comboKey i1 i2 i3)
      = true := by
    rw [hans]
    unfold user_already_correct_combo
    rw [List.any_append]
    simp
  constructor
  · unfold check_answer
    rw [if_pos hact2, if_pos hadj, hcs, if_pos halready2]
  constructor
  · unfold check_answer
    rw [if_pos hact2, if_pos hadj, hcs, if_pos halready2]
  constructor
  · rw [hscores, (add_score_spec s.scores uid uname (answer_points s.answers)).2, hpts]
  · rw [hpts]
    unfold answer_points FIRST_CORRECT_POINTS LATER_CORRECT_POINTS
    split <;> decide

/-- Witness for C7: player 7 solves "DEF", the round stays open (there
is a second combination), and resubmitting "DEF" is rejected as already
scored with an unchanged score table. -/
theorem check_answer_idempotent_per_combo_witness :
    (check_answer sampleState 7 "p" 3 4 5).2 = Outcome.correct 2 2 1 2 ∧
    ((check_answer sampleState 7 "p" 3 4 5).1).activeGame = true ∧
    ((check_answer ((check_answer sampleState 7 "p" 3 4 5).1) 7 "p" 3 4 5).2
        = Outcome.alreadyScored ∧
      ((check_answer ((check_answer sampleState 7 "p" 3 4 5).1) 7 "p" 3 4 5).1).scores
        = ((check_answer sampleState 7 "p" 3 4 5).1).scores ∧
      get_user_score ((check_answer sampleState 7 "p" 3 4 5).1).scores 7
        = get_user_score sampleState.scores 7 + 2 ∧
      (0 : ℤ) < 2) :=
  ⟨by decide, by decide,
   check_answer_idempotent_per_combo sampleState 7 "p" 3 4 5 2 2 1 2 (by decide) (by decide)⟩

/-- C8.  If player `x`'s submission of a combination is credited and the
round is still active, a later submission of the same combination by a
different player `y` reports the claim-taken outcome, leaves the score
table (hence `y`'s score) unchanged, and the recorded first solver of
that combination key is `x`. -/
theorem check_answer_first_claim_exclusive (s : ChatState) (x y : ℤ) (nx ny : String)
    (i1 i2 i3 : ℕ) (pts ns : ℤ) (sc tot : ℕ)
    (h : (check_answer s x nx i1 i2 i3).2 = Outcome.correct pts ns sc tot)
    (hact2 : ((check_answer s x nx i1 i2 i3).1).activeGame = true)
    (hxy : y ≠ x) :
    (check_answer ((check_answer s x nx i1 i2 i3).1) y ny i1 i2 i3).2
      = Outcome.alreadyTaken ∧
    ((check_answer ((check_answer s x nx i1 i2 i3).1) y ny i1 i2 i3).1).scores
      = ((check_answer s x nx i1 i2 i3).1).scores ∧
    get_combo_first_solver ((check_answer s x nx i1 i2 i3).1).answers (comboKey i1 i2 i3)
      = some x := by
  obtain ⟨hact, hadj, ⟨e, heq⟩, h4, h5, hpts, hns, hsc, htot, heqca⟩ :=
    check_answer_correct_inversion s x nx i1 i2 i3 pts ns sc tot h
  rw [heqca] at hact2 ⊢
  obtain ⟨hvc, hnum, htar, hans, hscores⟩ := credit_step_fields s x nx (comboKey i1 i2 i3)
  have hfind : s.answers.find?
      (fun r => r.expression == comboKey i1 i2 i3 && r.correct) = none := by
    unfold get_combo_first_solver at h5
    exact Option.map_eq_none'.mp h5
  have hfs2 : get_combo_first_solver
      ((credit_step s x nx (comboKey i1 i2 i3)).1).answers (comboKey i1 i2 i3) = some x := by
    rw [hans]
    unfold get_combo_first_solver
    rw [List.find?_append, hfind]
    simp
  have hcs : cache_or_solver (credit_step s x nx (comboKey i1 i2 i3)).1 i1 i2 i3
      = some e := by
    rw [cache_or_solver_congr s _ i1 i2 i3 hvc hnum htar]
    exact heq
  have halreadyY : user_already_correct_combo
      ((credit_step s x nx (comboKey i1 i2 i3)).1).answers y (comboKey i1 i2 i3)
      = false := by
    rw [hans]
    unfold user_already_correct_combo
    rw [List.any_append]
    have h1 : s.answers.any
        (fun r => r.user == y && r.expression == comboKey i1 i2 i3 && r.correct) = false := by
      rw [List.any_eq_false]
      intro r hr hpred
      have hnot := List.find?_eq_none.mp hfind r hr
      simp only [Bool.and_eq_true] at hpred hnot
      tauto
    rw [h1]
    have hne : (x == y) = false := by
      simp [Ne.symm hxy]
    simp [hne]
  have htakenY : get_combo_first_solver
        ((credit_step s x nx (comboKey i1 i2 i3)).1).answers (comboKey i1 i2 i3) ≠ none ∧
      get_combo_first_solver
        ((credit_step s x nx (comboKey i1 i2 i3)).1).answers (comboKey i1 i2 i3) ≠ some y := by
    rw [hfs2]
    refine ⟨by simp, ?_⟩
    simp [Ne.symm hxy]
  refine ⟨?_, ?_, hfs2⟩
  · unfold check_answer
    rw [if_pos hact2, if_pos hadj, hcs, if_neg (by simp [halreadyY]), if_pos htakenY]
  · unfold check_answer
    rw [if_pos hact2, if_pos hadj, hcs, if_neg (by simp [halreadyY]), if_pos htakenY]

/-- Witness for C8: player 7 claims "DEF"; player 8's identical
submission is reported as taken and changes no score. -/
theorem check_answer_first_claim_exclusive_witness :
    (check_answer sampleState 7 "p" 3 4 5).2 = Outcome.correct 2 2 1 2 ∧
    ((check_answer sampleState 7 "p" 3 4 5).1).activeGame = true ∧
    (8 : ℤ) ≠ 7 ∧
    ((check_answer ((check_answer sampleState 7 "p" 3 4 5).1) 8 "q" 3 4 5).2
        = Outcome.alreadyTaken ∧
      ((check_answer ((check_answer sampleState 7 "p" 3 4 5).1) 8 "q" 3 4 5).1).scores
        = ((check_answer sampleState 7 "p" 3 4 5).1).scores ∧
      get_combo_first_solver ((check_answer sampleState 7 "p" 3 4 5).1).answers
          (comboKey 3 4 5) = some 7) :=
  ⟨by decide, by decide, by decide,
   check_answer_first_claim_exclusive sampleState 7 8 "p" "q" 3 4 5 2 2 1 2
     (by decide) (by decide) (by decide)⟩

/-- The wrong-answer branch of `check_answer` in closed form: a legal
triple with no solution appends an incorrect record and applies the
penalty. -/
theorem check_answer_wrong_step (s : ChatState) (uid : ℤ) (uname : String) (i1 i2 i3 : ℕ)
    (hact : s.activeGame = true)
    (hadj : sort3 i1 i2 i3 ∈ PRECOMPUTED_TRIPLETS_SORTED)
    (hsol : cache_or_solver s i1 i2 i3 = none) :
    check_answer s uid uname i1 i2 i3
      = ({ s with
            answers := s.answers ++
              [{ user := uid, expression := comboKey i1 i2 i3, correct := false }],
            scores := (add_score s.scores uid uname (-WRONG_PENALTY)).1 },
         Outcome.wrongAnswer WRONG_PENALTY (add_score s.scores uid uname (-WRONG_PENALTY)).2) := by
  unfold check_answer
  rw [if_pos hact, if_pos hadj, hsol]

/-- Repeatedly submitting a legal-but-unsolvable triple keeps the round
unchanged apart from records and scores and drives the submitter's
total down by the penalty each time. -/
theorem wrong_answers_accumulate (s : ChatState) (uid : ℤ) (uname : String) (i1 i2 i3 : ℕ)
    (hact : s.activeGame = true)
    (hadj : sort3 i1 i2 i3 ∈ PRECOMPUTED_TRIPLETS_SORTED)
    (hsol : cache_or_solver s i1 i2 i3 = none) :
    ∀ n : ℕ,
      ((fun st => (check_answer st uid uname i1 i2 i3).1)^[n] s).activeGame = true ∧
      ((fun st => (check_answer st uid uname i1 i2 i3).1)^[n] s).validCombos = s.validCombos ∧
      ((fun st => (check_answer st uid uname i1 i2 i3).1)^[n] s).numbers = s.numbers ∧
      ((fun st => (check_answer st uid uname i1 i2 i3).1)^[n] s).target = s.target ∧
      get_user_score ((fun st => (check_answer st uid uname i1 i2 i3).1)^[n] s).scores uid
        = get_user_score s.scores uid - n * WRONG_PENALTY := by
  intro n
  induction n with
  | zero =>
    refine ⟨hact, rfl, rfl, rfl, ?_⟩
    simp
  | succ n ih =>
    obtain ⟨ih1, ih2, ih3, ih4, ih5⟩ := ih
    rw [Function.iterate_succ_apply']
    have hsol2 : cache_or_solver
        ((fun st => (check_answer st uid uname i1 i2 i3).1)^[n] s) i1 i2 i3 = none := by
      rw [cache_or_solver_congr s _ i1 i2 i3 ih2 ih3 ih4]
      exact hsol
    rw [check_answer_wrong_step _ uid uname i1 i2 i3 ih1 hadj hsol2]
    refine ⟨ih1, ih2, ih3, ih4, ?_⟩
    show get_user_score (add_score _ uid uname (-WRONG_PENALTY)).1 uid = _
    rw [(add_score_spec _ uid uname (-WRONG_PENALTY)).2, ih5]
    push_cast
    ring

/-- C10.  `add_score` on a player with no existing row creates the row
with total exactly `delta` (so totals start at whatever the first delta
is, negative included); in particular a player whose first actions in a
chat are `n` penalized wrong answers ends with total `-n * WRONG_PENALTY`
— totals can be negative and are unbounded below. -/
theorem add_score_fresh_row_unbounded_below :
    (∀ (rows : List ScoreRow) (uid : ℤ) (uname : String) (delta : ℤ),
      rows.find? (fun r => r.user == uid) = none →
      (add_score rows uid uname delta).2 = delta ∧
      get_user_score (add_score rows uid uname delta).1 uid = delta) ∧
    (∀ (s : ChatState) (uid : ℤ) (uname : String) (i1 i2 i3 : ℕ) (n : ℕ),
      s.activeGame = true →
      sort3 i1 i2 i3 ∈ PRECOMPUTED_TRIPLETS_SORTED →
      cache_or_solver s i1 i2 i3 = none →
      s.scores.find? (fun r => r.user == uid) = none →
      get_user_score ((fun st => (check_answer st uid uname i1 i2 i3).1)^[n] s).scores uid
        = -(n * WRONG_PENALTY)) := by
  constructor
  · intro rows uid uname delta hnone
    have hs := add_score_spec rows uid uname delta
    have hz : get_user_score rows uid = 0 := by
      unfold get_user_score
      rw [hnone]
    rw [hz] at hs
    simpa using hs
  · intro s uid uname i1 i2 i3 n hact hadj hsol hfresh
    have hz : get_user_score s.scores uid = 0 := by
      unfold get_user_score
      rw [hfresh]
    have := (wrong_answers_accumulate s uid uname i1 i2 i3 hact hadj hsol n).2.2.2.2
    rw [hz] at this
    omega

/-- Witness for C10: a fresh row created by a negative delta holds that
delta, and a fresh player who submits the legal triple DEF twice against
an unsolvable target ends at `-2`. -/
theorem add_score_fresh_row_unbounded_below_witness :
    ((add_score [] 5 "z" (-3)).2 = -3 ∧
      get_user_score (add_score [] 5 "z" (-3)).1 5 = -3) ∧
    get_user_score
      ((fun st => (check_answer st 5 "z" 3 4 5).1)^[2] sampleStateWrong).scores 5
        = -(2 * WRONG_PENALTY) :=
  ⟨add_score_fresh_row_unbounded_below.1 [] 5 "z" (-3) (by decide),
   add_score_fresh_row_unbounded_below.2 sampleStateWrong 5 "z" 3 4 5 2
     (by decide) (by decide) (by decide) (by decide)⟩
